import Mathlib

/-
Shallow embedding of the linkinator crawl engine (src index module: the
LinkChecker class with check, _fetch and
_filterCachedFilterSkippedThenCrawlUrlAndChildren, plus the data model).
External collaborators (HTTP transport via gaxios, the link extractor
getLinks, the regular-expression engine, the static web server) are
modelled as components of an explicit environment record. JavaScript
exceptions are modelled with Except and with outcome constructors that
carry the mutable state reached at the moment of the throw, since the
mutated objects (cache, results) outlive the exception. The unbounded
recursion of the crawl is made total with an explicit fuel parameter;
running out of fuel is a distinguished outcome so that theorems can be
stated about runs the source program would actually complete.
-/

namespace Linkinator

/-- The LinkState enum of the source: OK, BROKEN, SKIPPED. -/
inductive LinkState where
  | OK : LinkState
  | BROKEN : LinkState
  | SKIPPED : LinkState
deriving DecidableEq

/-- LinkResult: url, optional numeric status, state. In the source the
status field is optional; results built by _fetch always carry a number
(0 when the request threw), while the skipped result omits it. -/
structure LinkResult where
  url : String
  status : Option Nat
  state : LinkState
deriving DecidableEq

/-- CrawlResult: the final report shape returned by check. -/
structure CrawlResult where
  passed : Bool
  links : List LinkResult
deriving DecidableEq

/-- CheckOptions: the caller supplied configuration object. Fields that
are optional in TypeScript are Option here; JavaScript truthiness on
port (0 and undefined both falsy) is reproduced at the use site. -/
structure CheckOptions where
  port : Option Nat
  path : String
  recurse : Option Bool
  linksToSkip : Option (List String)
deriving DecidableEq

/-- HTTP method of a transport request: the source only uses HEAD and GET. -/
inductive Method where
  | HEAD : Method
  | GET : Method
deriving DecidableEq

/-- A gaxios response as the source consumes it: numeric status, the
content-type header (empty string when the header is absent, matching
the headers lookup with a fallback to the empty string), and the body. -/
structure GaxiosResponse where
  status : Nat
  contentType : String
  data : String
deriving DecidableEq

/-- One wire request issued through the transport. -/
structure Request where
  method : Method
  url : String
deriving DecidableEq

/-- The record returned by _fetch: body data, the html flag driving
recursion, and the LinkResult for the url. -/
structure FetchResult where
  data : String
  shouldRecurse : Bool
  linkResult : LinkResult
deriving DecidableEq

/-- Payloads emitted through the EventEmitter. The source emits the bare
LinkResult in the skip branch, the whole FetchResult record in the fetch
branch, and the url string for pagestart. The constructors keep these
payload shapes distinct, exactly as a subscriber would observe them. -/
inductive Event where
  | linkResult : LinkResult → Event
  | linkFetch : FetchResult → Event
  | pagestart : String → Event
deriving DecidableEq

/-- The environment of external collaborators. transport takes the index
of the request in the run (so that successive requests may see different
responses), the method and the url, and either returns a response (any
status, since validateStatus always accepts) or throws a transport level
error. regexCompile returns none when new RegExp would throw on the
pattern, otherwise the unanchored test function of the compiled regex.
getLinks is the link extractor; randomPort models the random draw in
Math.round of Math.random times 1000; bindOk tells whether listening on
a given port succeeds. -/
structure Env where
  transport : Nat → Method → String → Except Unit GaxiosResponse
  getLinks : String → String → List String
  regexCompile : String → Option (String → Bool)
  randomPort : Nat
  bindOk : Nat → Bool

/-- JavaScript String.prototype.startsWith, on the character data. -/
def jsStartsWith (s pre : String) : Bool :=
  pre.data.isPrefixOf s.data

/-- Whether pat occurs at the head of hay. -/
def matchAt : List Char → List Char → Bool
  | _, [] => true
  | [], _ :: _ => false
  | h :: hs, p :: ps => h = p && matchAt hs ps

/-- Whether pat occurs anywhere inside hay: the effect of matching the
literal regular expression text/html against a header value. -/
def containsSeq : List Char → List Char → Bool
  | [], pat => matchAt [] pat
  | h :: hs, pat => matchAt (h :: hs) pat || containsSeq hs pat

/-- isHtml from the source: the content-type header matched against the
pattern text/html, an unanchored search for that literal substring. -/
def isHtml (response : GaxiosResponse) : Bool :=
  containsSeq response.contentType.data "text/html".data

/-- Status classification in _fetch: state starts BROKEN and becomes OK
exactly when the final status is at least 200 and below 300. -/
def classify (status : Nat) : LinkState :=
  if 200 ≤ status ∧ status < 300 then LinkState.OK else LinkState.BROKEN

/-- Method selection in _fetch: GET when the caller wants to crawl the
body, HEAD otherwise. -/
def headOrGet (shouldCrawl : Bool) : Method :=
  if shouldCrawl then Method.GET else Method.HEAD

/-- The value _fetch returns from its catch handler: the local variables
keep their initial values, so data is empty, shouldRecurse is false and
the LinkResult carries status 0 and state BROKEN. -/
def failFetch (url : String) : FetchResult :=
  { data := "", shouldRecurse := false,
    linkResult := { url := url, status := some 0, state := LinkState.BROKEN } }

/-- The value _fetch returns when the (possibly retried) request gave a
response: status, classification, body and html flag all from res. -/
def finishFetch (url : String) (res : GaxiosResponse) : FetchResult :=
  { data := res.data, shouldRecurse := isHtml res,
    linkResult := { url := url, status := some res.status, state := classify res.status } }

/-- The _fetch method. n is the index of the next transport request in
the run. Besides the FetchResult it returns the list of wire requests it
issued, in order: one request by the chosen method, plus one GET retry
exactly when the first response had status 405 (regardless of which
method the first request used). A thrown second request is caught by the
same handler as a thrown first one. -/
def _fetch (t : Nat → Method → String → Except Unit GaxiosResponse)
    (n : Nat) (url : String) (shouldCrawl : Bool) : FetchResult × List Request :=
  let m := headOrGet shouldCrawl
  match t n m url with
  | Except.error _ => (failFetch url, [⟨m, url⟩])
  | Except.ok res =>
    if res.status = 405 then
      match t (n + 1) Method.GET url with
      | Except.error _ => (failFetch url, [⟨m, url⟩, ⟨Method.GET, url⟩])
      | Except.ok res2 => (finishFetch url res2, [⟨m, url⟩, ⟨Method.GET, url⟩])
    else (finishFetch url res, [⟨m, url⟩])

/-- The fields of the (already normalized and possibly rewritten)
options object that the crawl reads: path, the recurse flag (undefined
behaves as false in the conjunction on line 192 of the source), and the
normalized skip list. -/
structure CrawlConfig where
  path : String
  recurseFlag : Bool
  linksToSkip : List String
deriving DecidableEq

/-- The shared mutable state of one crawl: the results array and the
cache set threaded through the recursion, plus observation ledgers that
record what the run did: emitted events, the count and list of wire
requests issued, and the urls handed to _fetch. -/
structure CrawlState where
  results : List LinkResult
  cache : List String
  events : List Event
  reqCount : Nat
  trace : List Request
  fetches : List String
deriving DecidableEq

/-- Outcome of a crawl call: normal return, a JavaScript exception
propagating (err), or fuel exhaustion of the embedding (fuelOut). Both
abnormal constructors carry the state reached so far, because the cache
and results objects are shared and survive the exception. -/
inductive CrawlOutcome where
  | ok : CrawlState → CrawlOutcome
  | err : CrawlState → CrawlOutcome
  | fuelOut : CrawlState → CrawlOutcome
deriving DecidableEq

/-- The state carried by any outcome. -/
def CrawlOutcome.state : CrawlOutcome → CrawlState
  | CrawlOutcome.ok s => s
  | CrawlOutcome.err s => s
  | CrawlOutcome.fuelOut s => s

/-- Whether the outcome is a propagating exception. -/
def CrawlOutcome.isErr : CrawlOutcome → Bool
  | CrawlOutcome.err _ => true
  | _ => false

/-- The skip scan on lines 169 to 173 of the source: map every pattern
to the result of new RegExp on it tested against the url. Compiling an
invalid pattern throws, which aborts the whole map; the map runs in list
order, so the first invalid pattern raises. -/
def testAll (env : Env) : List String → String → Except Unit (List Bool)
  | [], _ => Except.ok []
  | p :: ps, url =>
    match env.regexCompile p with
    | none => Except.error ()
    | some g => (testAll env ps url).map (fun rest => g url :: rest)

/-- The recursion flag computed for a discovered child on lines 191 to
192 of the source: recurse enabled and the child url starts with the
(possibly rewritten) target path. -/
def childFlag (cfg : CrawlConfig) (u : String) : Bool :=
  cfg.recurseFlag && jsStartsWith u cfg.path

/-- cache.add of the url. -/
def cacheAdd (s : CrawlState) (url : String) : CrawlState :=
  { s with cache := s.cache ++ [url] }

/-- The skip branch: push the SKIPPED result (no status) and emit the
link event with that LinkResult as payload. -/
def pushSkipped (s : CrawlState) (url : String) : CrawlState :=
  let r : LinkResult := { url := url, status := none, state := LinkState.SKIPPED }
  { s with results := s.results ++ [r], events := s.events ++ [Event.linkResult r] }

/-- The fetch branch bookkeeping: push the LinkResult of the fetch onto
results, emit the link event whose payload is the whole FetchResult
record (exactly what line 183 of the source passes to emit), and record
the issued wire requests and the fetched url. -/
def pushFetched (s : CrawlState) (url : String) (fr : FetchResult × List Request) : CrawlState :=
  { s with results := s.results ++ [fr.1.linkResult],
           events := s.events ++ [Event.linkFetch fr.1],
           reqCount := s.reqCount + fr.2.length,
           trace := s.trace ++ fr.2,
           fetches := s.fetches ++ [url] }

/-- The pagestart event emitted before extracting children. -/
def pushPage (s : CrawlState) (url : String) : CrawlState :=
  { s with events := s.events ++ [Event.pagestart url] }

/-- The for loop over extracted child urls: each child is processed in
order by the given step with the flag computed for it; an exception (or
fuel exhaustion) from a child aborts the remaining iterations and
propagates. -/
def runChildren (step : String → Bool → CrawlState → CrawlOutcome)
    (flagOf : String → Bool) : List String → CrawlState → CrawlOutcome
  | [], s => CrawlOutcome.ok s
  | u :: us, s =>
    match step u (flagOf u) s with
    | CrawlOutcome.ok s2 => runChildren step flagOf us s2
    | e => e

/-- The recursive crawl method of the source, fuel indexed. Structure of
one call on (url, crawl): return at once when the url is cached; add the
url to the cache; run the skip scan (which throws on an invalid
pattern); on a match push the SKIPPED result; otherwise fetch, push the
result, and when crawl and the response was html, emit pagestart,
extract children and iterate over them with the child recursion flag. -/
def _filterCachedFilterSkippedThenCrawlUrlAndChildren (env : Env) (cfg : CrawlConfig) :
    Nat → String → Bool → CrawlState → CrawlOutcome
  | 0 => fun _ _ s => CrawlOutcome.fuelOut s
  | Nat.succ fuel => fun url crawl s =>
    if url ∈ s.cache then
      CrawlOutcome.ok s
    else
      let s1 := cacheAdd s url
      match testAll env cfg.linksToSkip url with
      | Except.error _ => CrawlOutcome.err s1
      | Except.ok tests =>
        if tests.any id then
          CrawlOutcome.ok (pushSkipped s1 url)
        else
          let fr := _fetch env.transport s1.reqCount url crawl
          let s2 := pushFetched s1 url fr
          if crawl && fr.1.shouldRecurse then
            runChildren (_filterCachedFilterSkippedThenCrawlUrlAndChildren env cfg fuel)
              (childFlag cfg) (env.getLinks fr.1.data url) (pushPage s2 url)
          else
            CrawlOutcome.ok s2

/-- Everything check produces or leaves behind: the report (none when an
exception propagated to the caller), the options object as it stands
after the call (the source mutates it in place), whether a local server
was started and whether it was destroyed, the final crawl state, and
whether the embedding ran out of fuel. -/
structure CheckOutput where
  report : Option CrawlResult
  options : CheckOptions
  serverStarted : Bool
  serverStopped : Bool
  finalState : CrawlState
  fuelExhausted : Bool
deriving DecidableEq

/-- The empty crawl state passed by check: fresh results and cache. -/
def emptyCrawlState : CrawlState :=
  { results := [], cache := [], events := [], reqCount := 0, trace := [], fetches := [] }

/-- The port chosen on line 67 of the source: the configured port unless
it is absent or 0 (both falsy), in which case 5000 plus a random draw. -/
def effPort (env : Env) (options : CheckOptions) : Nat :=
  if options.port.getD 0 = 0 then 5000 + env.randomPort else options.port.getD 0

/-- Projection of the mutated options object to the fields the crawl
reads. The non-null assertion on linksToSkip and the truthiness of
recurse are resolved with getD. -/
def cfgOf (options : CheckOptions) : CrawlConfig :=
  { path := options.path, recurseFlag := options.recurse.getD false,
    linksToSkip := options.linksToSkip.getD [] }

/-- The tail of check after the optional server start: run the crawl on
the target with crawl true and fresh state, assemble the report with
passed true exactly when no result filtered as BROKEN, then destroy the
server if one was started. When the crawl throws, the exception
propagates before the destroy call, so the server is not stopped. -/
def runCrawlAndReport (env : Env) (fuel : Nat) (options : CheckOptions)
    (serverStarted : Bool) : CheckOutput :=
  match _filterCachedFilterSkippedThenCrawlUrlAndChildren env (cfgOf options) fuel
      options.path true emptyCrawlState with
  | CrawlOutcome.ok s =>
    { report := some
        { passed := decide ((s.results.filter
            (fun x => decide (x.state = LinkState.BROKEN))).length = 0),
          links := s.results },
      options := options, serverStarted := serverStarted, serverStopped := serverStarted,
      finalState := s, fuelExhausted := false }
  | CrawlOutcome.err s =>
    { report := none, options := options, serverStarted := serverStarted,
      serverStopped := false, finalState := s, fuelExhausted := false }
  | CrawlOutcome.fuelOut s =>
    { report := none, options := options, serverStarted := serverStarted,
      serverStopped := false, finalState := s, fuelExhausted := true }

/-- The check method. It first mutates the options object: linksToSkip
defaults to the empty array and the built-in mailto pattern is pushed;
then, when the path is not url shaped, a port is chosen and a static
server is started (a bind failure rejects and propagates before the
path is rewritten), and the path is rewritten to the local endpoint;
finally the crawl runs and the report is assembled. -/
def check (env : Env) (fuel : Nat) (options : CheckOptions) : CheckOutput :=
  let lts := options.linksToSkip.getD [] ++ ["^mailto:"]
  let options1 := { options with linksToSkip := some lts }
  if jsStartsWith options1.path "http" then
    runCrawlAndReport env fuel options1 false
  else
    let port := effPort env options1
    if env.bindOk port then
      runCrawlAndReport env fuel { options1 with path := "http://localhost:" ++ toString port } true
    else
      { report := none, options := options1, serverStarted := false, serverStopped := false,
        finalState := emptyCrawlState, fuelExhausted := false }

/-- The url that actually gets crawled as the root: the path itself when
it is url shaped, otherwise the local endpoint of the static server. -/
def effTarget (env : Env) (options : CheckOptions) : String :=
  if jsStartsWith options.path "http" then options.path
  else "http://localhost:" ++ toString (effPort env options)

/-- A url hits the skip list when some pattern in it compiles and its
unanchored test accepts the url. -/
def SkipHit (env : Env) (pats : List String) (u : String) : Prop :=
  ∃ p ∈ pats, ∃ g, env.regexCompile p = some g ∧ g u = true

/-- Invariant tying the ledgers of a crawl state together: the cache has
no duplicates; the urls of the results are exactly the cache, in order;
every fetched url is cached; no url is handed to _fetch twice; every
wire request belongs to a fetched url; no fetched url hits the skip
list; and every result whose url hits the skip list is the SKIPPED
result without a status. -/
structure Inv (env : Env) (cfg : CrawlConfig) (s : CrawlState) : Prop where
  cache_nodup : s.cache.Nodup
  results_cache : s.results.map LinkResult.url = s.cache
  fetches_cache : ∀ u ∈ s.fetches, u ∈ s.cache
  fetches_nodup : s.fetches.Nodup
  trace_fetches : ∀ rq ∈ s.trace, rq.url ∈ s.fetches
  fetches_noskip : ∀ u ∈ s.fetches, ¬ SkipHit env cfg.linksToSkip u
  results_skip : ∀ r ∈ s.results, SkipHit env cfg.linksToSkip r.url →
    r.state = LinkState.SKIPPED ∧ r.status = none

/-- The invariant transported to outcomes: it holds again after a normal
return and at the point where the fuel of the embedding ran out; nothing
is claimed about states reached by a propagating exception. -/
def InvOut (env : Env) (cfg : CrawlConfig) : CrawlOutcome → Prop
  | CrawlOutcome.ok s => Inv env cfg s
  | CrawlOutcome.err _ => True
  | CrawlOutcome.fuelOut s => Inv env cfg s

/-- Fixture: every request answers 200 text/plain with an empty body, no
links anywhere, every pattern compiles to a regex that matches nothing. -/
def envOkPlain : Env :=
  { transport := fun _ _ _ =>
      Except.ok { status := 200, contentType := "text/plain", data := "" },
    getLinks := fun _ _ => [],
    regexCompile := fun _ => some (fun _ => false),
    randomPort := 0,
    bindOk := fun _ => true }

/-- Fixture: every request throws at the transport level. -/
def envNetFail : Env :=
  { transport := fun _ _ _ => Except.error (),
    getLinks := fun _ _ => [],
    regexCompile := fun _ => some (fun _ => false),
    randomPort := 0,
    bindOk := fun _ => true }

/-- Fixture: the pattern consisting of a lone opening bracket does not
compile (new RegExp throws on it); every other pattern compiles to a
regex matching nothing. Requests all answer 200. -/
def envBadPattern : Env :=
  { transport := fun _ _ _ => Except.ok { status := 200, contentType := "", data := "" },
    getLinks := fun _ _ => [],
    regexCompile := fun p => if p = "[" then none else some (fun _ => false),
    randomPort := 0,
    bindOk := fun _ => true }

/-- Fixture: the root document is html with body B containing one mailto
link; every pattern compiles to a regex accepting exactly the urls that
start with mailto. -/
def envHtmlMailto : Env :=
  { transport := fun _ _ _ =>
      Except.ok { status := 200, contentType := "text/html", data := "B" },
    getLinks := fun d _ => if d = "B" then ["mailto:a"] else [],
    regexCompile := fun _ => some (fun u => jsStartsWith u "mailto:"),
    randomPort := 0,
    bindOk := fun _ => true }

/-- Fixture: the first request of the run answers 405, every later
request answers 200 text/html. -/
def t405 : Nat → Method → String → Except Unit GaxiosResponse := fun n _ _ =>
  if n = 0 then Except.ok { status := 405, contentType := "", data := "" }
  else Except.ok { status := 200, contentType := "text/html", data := "B" }

/-- Fixture: a plain url target with no options set. -/
def optsX : CheckOptions :=
  { port := none, path := "http://x", recurse := none, linksToSkip := none }

/-- Fixture: a url target with an explicitly empty skip list. -/
def optsEmptySkip : CheckOptions :=
  { port := none, path := "http://x", recurse := none, linksToSkip := some [] }

/-- Fixture: a filesystem target with a fixed port and an invalid skip
pattern. -/
def optsLocalBad : CheckOptions :=
  { port := some 8080, path := "site", recurse := none, linksToSkip := some ["["] }

/-- Fixture: a url target with an invalid skip pattern. -/
def optsHttpBad : CheckOptions :=
  { port := none, path := "http://x", recurse := none, linksToSkip := some ["["] }

/-- Fixture: a url target with recursion enabled. -/
def optsRecurse : CheckOptions :=
  { port := none, path := "http://x", recurse := some true, linksToSkip := none }

/-- Fixture: crawl configuration for the recursion gate witness. -/
def cfgW : CrawlConfig :=
  { path := "http://x", recurseFlag := true, linksToSkip := ["^mailto:"] }

theorem _fetch_linkResult_url (t : Nat → Method → String → Except Unit GaxiosResponse)
    (n : Nat) (url : String) (c : Bool) : ((_fetch t n url c).1).linkResult.url = url := by
  cases h1 : t n (headOrGet c) url with
  | error e => simp [_fetch, h1, failFetch]
  | ok res =>
    by_cases h2 : res.status = 405
    · cases h3 : t (n + 1) Method.GET url with
      | error e => simp [_fetch, h1, h2, h3, failFetch]
      | ok res2 => simp [_fetch, h1, h2, h3, finishFetch]
    · simp [_fetch, h1, h2, finishFetch]

theorem _fetch_reqs_url (t : Nat → Method → String → Except Unit GaxiosResponse)
    (n : Nat) (url : String) (c : Bool) :
    ∀ rq ∈ (_fetch t n url c).2, rq.url = url := by
  intro rq hrq
  cases h1 : t n (headOrGet c) url with
  | error e =>
    simp [_fetch, h1] at hrq
    subst hrq; rfl
  | ok res =>
    by_cases h2 : res.status = 405
    · cases h3 : t (n + 1) Method.GET url with
      | error e =>
        simp [_fetch, h1, h2, h3] at hrq
        rcases hrq with hrq | hrq <;> (subst hrq; rfl)
      | ok res2 =>
        simp [_fetch, h1, h2, h3] at hrq
        rcases hrq with hrq | hrq <;> (subst hrq; rfl)
    · simp [_fetch, h1, h2] at hrq
      subst hrq; rfl

theorem testAll_ok_any (env : Env) (url : String) :
    ∀ (pats : List String) (tests : List Bool),
      testAll env pats url = Except.ok tests →
      (tests.any id = true ↔ SkipHit env pats url) := by
  intro pats
  induction pats with
  | nil =>
    intro tests h
    simp only [testAll] at h
    cases h
    simp [SkipHit]
  | cons p ps ih =>
    intro tests h
    simp only [testAll] at h
    cases hc : env.regexCompile p with
    | none => rw [hc] at h; cases h
    | some g =>
      rw [hc] at h
      cases ht : testAll env ps url with
      | error e => rw [ht] at h; cases h
      | ok rest =>
        rw [ht] at h
        cases h
        constructor
        · intro hand
          rw [List.any_cons] at hand
          cases hgu : g url with
          | true => exact ⟨p, List.mem_cons_self p ps, g, hc, hgu⟩
          | false =>
            rw [hgu] at hand
            have hr : rest.any id = true := by simpa using hand
            obtain ⟨q, hq, g2, hcq, hg2⟩ := (ih rest ht).mp hr
            exact ⟨q, List.mem_cons_of_mem p hq, g2, hcq, hg2⟩
        · rintro ⟨q, hq, g2, hcq, hg2⟩
          rw [List.any_cons]
          rcases List.mem_cons.mp hq with hqp | hqs
          · subst hqp
            rw [hc] at hcq
            cases hcq
            simp [hg2]
          · have hr := (ih rest ht).mpr ⟨q, hqs, g2, hcq, hg2⟩
            simp [hr]

theorem testAll_error_of_invalid (env : Env) (url : String) :
    ∀ (pats : List String), (∃ p ∈ pats, env.regexCompile p = none) →
      testAll env pats url = Except.error () := by
  intro pats
  induction pats with
  | nil => rintro ⟨p, hp, _⟩; cases hp
  | cons p ps ih =>
    rintro ⟨q, hq, hcq⟩
    simp only [testAll]
    rcases List.mem_cons.mp hq with hqp | hqs
    · subst hqp; rw [hcq]
    · cases hc : env.regexCompile p with
      | none => rfl
      | some g => rw [ih ⟨q, hqs, hcq⟩]; rfl

theorem testAll_ok_of_valid (env : Env) (url : String) :
    ∀ (pats : List String), (∀ p ∈ pats, (env.regexCompile p).isSome = true) →
      ∃ tests, testAll env pats url = Except.ok tests := by
  intro pats
  induction pats with
  | nil => intro _; exact ⟨[], rfl⟩
  | cons p ps ih =>
    intro h
    have hp := h p (List.mem_cons_self p ps)
    cases hc : env.regexCompile p with
    | none => rw [hc] at hp; simp at hp
    | some g =>
      obtain ⟨rest, hrest⟩ := ih (fun q hq => h q (List.mem_cons_of_mem p hq))
      refine ⟨g url :: rest, ?_⟩
      simp only [testAll]
      rw [hc, hrest]
      rfl

theorem inv_empty (env : Env) (cfg : CrawlConfig) : Inv env cfg emptyCrawlState := by
  constructor <;> simp [emptyCrawlState]

theorem inv_pushSkipped (env : Env) (cfg : CrawlConfig) (s : CrawlState) (url : String)
    (hs : Inv env cfg s) (hmem : url ∉ s.cache) :
    Inv env cfg (pushSkipped (cacheAdd s url) url) := by
  obtain ⟨h1, h2, h3, h4, h5, h6, h7⟩ := hs
  have hdis : s.cache.Disjoint [url] := by
    intro a ha hb
    rw [List.mem_singleton] at hb
    subst hb
    exact hmem ha
  constructor
  · simpa [pushSkipped, cacheAdd] using h1.append (List.nodup_singleton url) hdis
  · simp [pushSkipped, cacheAdd, h2]
  · intro u hu
    simp only [pushSkipped, cacheAdd] at hu ⊢
    exact List.mem_append_left _ (h3 u hu)
  · simpa [pushSkipped, cacheAdd] using h4
  · intro rq hrq
    simp only [pushSkipped, cacheAdd] at hrq ⊢
    exact h5 rq hrq
  · intro u hu
    simp only [pushSkipped, cacheAdd] at hu
    exact h6 u hu
  · intro r hr hhit
    simp only [pushSkipped, cacheAdd, List.mem_append] at hr
    rcases hr with hr | hr
    · exact h7 r hr hhit
    · rw [List.mem_singleton] at hr
      subst hr
      exact ⟨rfl, rfl⟩

theorem inv_pushFetched (env : Env) (cfg : CrawlConfig) (s : CrawlState) (url : String)
    (n : Nat) (crawl : Bool) (hs : Inv env cfg s) (hmem : url ∉ s.cache)
    (hns : ¬ SkipHit env cfg.linksToSkip url) :
    Inv env cfg (pushFetched (cacheAdd s url) url (_fetch env.transport n url crawl)) := by
  obtain ⟨h1, h2, h3, h4, h5, h6, h7⟩ := hs
  have hdis : s.cache.Disjoint [url] := by
    intro a ha hb
    rw [List.mem_singleton] at hb
    subst hb
    exact hmem ha
  have hfmem : url ∉ s.fetches := fun hf => hmem (h3 url hf)
  have hfdis : s.fetches.Disjoint [url] := by
    intro a ha hb
    rw [List.mem_singleton] at hb
    subst hb
    exact hfmem ha
  constructor
  · simpa [pushFetched, cacheAdd] using h1.append (List.nodup_singleton url) hdis
  · simp [pushFetched, cacheAdd, h2, _fetch_linkResult_url]
  · intro u hu
    simp only [pushFetched, cacheAdd, List.mem_append] at hu ⊢
    rcases hu with hu | hu
    · exact Or.inl (h3 u hu)
    · exact Or.inr hu
  · simpa [pushFetched, cacheAdd] using h4.append (List.nodup_singleton url) hfdis
  · intro rq hrq
    simp only [pushFetched, cacheAdd, List.mem_append] at hrq ⊢
    rcases hrq with hrq | hrq
    · exact Or.inl (h5 rq hrq)
    · exact Or.inr (by rw [_fetch_reqs_url env.transport n url crawl rq hrq]; simp)
  · intro u hu
    simp only [pushFetched, cacheAdd, List.mem_append] at hu
    rcases hu with hu | hu
    · exact h6 u hu
    · rw [List.mem_singleton] at hu
      subst hu
      exact hns
  · intro r hr hhit
    simp only [pushFetched, cacheAdd, List.mem_append] at hr
    rcases hr with hr | hr
    · exact h7 r hr hhit
    · rw [List.mem_singleton] at hr
      subst hr
      rw [_fetch_linkResult_url] at hhit
      exact absurd hhit hns

theorem inv_pushPage (env : Env) (cfg : CrawlConfig) (s : CrawlState) (url : String)
    (hs : Inv env cfg s) : Inv env cfg (pushPage s url) := by
  obtain ⟨h1, h2, h3, h4, h5, h6, h7⟩ := hs
  exact ⟨h1, h2, h3, h4, h5, h6, h7⟩

theorem runChildren_inv (env : Env) (cfg : CrawlConfig)
    (step : String → Bool → CrawlState → CrawlOutcome) (flagOf : String → Bool)
    (hstep : ∀ u c s, Inv env cfg s → InvOut env cfg (step u c s)) :
    ∀ (urls : List String) (s : CrawlState), Inv env cfg s →
      InvOut env cfg (runChildren step flagOf urls s) := by
  intro urls
  induction urls with
  | nil => intro s hs; exact hs
  | cons u us ih =>
    intro s hs
    simp only [runChildren]
    have h := hstep u (flagOf u) s hs
    cases hso : step u (flagOf u) s with
    | ok s2 =>
      rw [hso] at h
      exact ih s2 h
    | err s2 => trivial
    | fuelOut s2 =>
      rw [hso] at h
      exact h

theorem crawl_inv (env : Env) (cfg : CrawlConfig) :
    ∀ (fuel : Nat) (url : String) (crawl : Bool) (s : CrawlState), Inv env cfg s →
      InvOut env cfg
        (_filterCachedFilterSkippedThenCrawlUrlAndChildren env cfg fuel url crawl s) := by
  intro fuel
  induction fuel with
  | zero =>
    intro url crawl s hs
    exact hs
  | succ f ih =>
    intro url crawl s hs
    simp only [_filterCachedFilterSkippedThenCrawlUrlAndChildren]
    by_cases hmem : url ∈ s.cache
    · simp only [hmem, if_true]
      exact hs
    · simp only [hmem, if_false]
      cases hta : testAll env cfg.linksToSkip url with
      | error e => simp only [hta]; trivial
      | ok tests =>
        simp only [hta]
        by_cases hany : tests.any id = true
        · simp only [hany, if_true]
          exact inv_pushSkipped env cfg s url hs hmem
        · have hns : ¬ SkipHit env cfg.linksToSkip url :=
            fun hhit => hany ((testAll_ok_any env url cfg.linksToSkip tests hta).mpr hhit)
          simp only [Bool.not_eq_true] at hany
          simp only [hany, Bool.false_eq_true, if_false]
          have hinv2 := inv_pushFetched env cfg s url (cacheAdd s url).reqCount crawl hs hmem hns
          by_cases hcr : (crawl &&
              (_fetch env.transport (cacheAdd s url).reqCount url crawl).1.shouldRecurse) = true
          · simp only [hcr, if_true]
            exact runChildren_inv env cfg _ (childFlag cfg) (fun u c s2 hs2 => ih u c s2 hs2) _ _
              (inv_pushPage env cfg _ url hinv2)
          · simp only [Bool.not_eq_true] at hcr
            simp only [hcr, Bool.false_eq_true, if_false]
            exact hinv2

theorem runChildren_noerr (step : String → Bool → CrawlState → CrawlOutcome)
    (flagOf : String → Bool) (hstep : ∀ u c s, (step u c s).isErr = false) :
    ∀ (urls : List String) (s : CrawlState), (runChildren step flagOf urls s).isErr = false := by
  intro urls
  induction urls with
  | nil => intro s; rfl
  | cons u us ih =>
    intro s
    simp only [runChildren]
    have h := hstep u (flagOf u) s
    cases hso : step u (flagOf u) s with
    | ok s2 => exact ih s2
    | err s2 => rw [hso] at h; cases h
    | fuelOut s2 => rfl

theorem crawl_noerr (env : Env) (cfg : CrawlConfig)
    (hvalid : ∀ p ∈ cfg.linksToSkip, (env.regexCompile p).isSome = true) :
    ∀ (fuel : Nat) (url : String) (crawl : Bool) (s : CrawlState),
      (_filterCachedFilterSkippedThenCrawlUrlAndChildren env cfg fuel url crawl s).isErr
        = false := by
  intro fuel
  induction fuel with
  | zero => intro url crawl s; rfl
  | succ f ih =>
    intro url crawl s
    simp only [_filterCachedFilterSkippedThenCrawlUrlAndChildren]
    by_cases hmem : url ∈ s.cache
    · simp only [hmem, if_true]; rfl
    · simp only [hmem, if_false]
      obtain ⟨tests, hta⟩ := testAll_ok_of_valid env url cfg.linksToSkip hvalid
      simp only [hta]
      by_cases hany : tests.any id = true
      · simp only [hany, if_true]; rfl
      · simp only [Bool.not_eq_true] at hany
        simp only [hany, Bool.false_eq_true, if_false]
        by_cases hcr : (crawl &&
            (_fetch env.transport (cacheAdd s url).reqCount url crawl).1.shouldRecurse) = true
        · simp only [hcr, if_true]
          exact runChildren_noerr _ (childFlag cfg) (fun u c s2 => ih u c s2) _ _
        · simp only [Bool.not_eq_true] at hcr
          simp only [hcr, Bool.false_eq_true, if_false]
          rfl

theorem runCrawlAndReport_options_eq (env : Env) (fuel : Nat) (opts : CheckOptions)
    (started : Bool) : (runCrawlAndReport env fuel opts started).options = opts := by
  unfold runCrawlAndReport
  cases _filterCachedFilterSkippedThenCrawlUrlAndChildren env (cfgOf opts) fuel
      opts.path true emptyCrawlState <;> rfl

theorem runCrawlAndReport_ok (env : Env) (fuel : Nat) (opts : CheckOptions) (started : Bool)
    (report : CrawlResult)
    (h : (runCrawlAndReport env fuel opts started).report = some report) :
    report.links = (runCrawlAndReport env fuel opts started).finalState.results ∧
    report.passed = decide
      (((runCrawlAndReport env fuel opts started).finalState.results.filter
        (fun x => decide (x.state = LinkState.BROKEN))).length = 0) ∧
    Inv env (cfgOf opts) (runCrawlAndReport env fuel opts started).finalState := by
  have hinv := crawl_inv env (cfgOf opts) fuel opts.path true emptyCrawlState
    (inv_empty env (cfgOf opts))
  unfold runCrawlAndReport at h ⊢
  cases hc : _filterCachedFilterSkippedThenCrawlUrlAndChildren env (cfgOf opts) fuel
      opts.path true emptyCrawlState with
  | ok s =>
    rw [hc] at h hinv
    simp only [Option.some.injEq] at h
    subst h
    exact ⟨rfl, rfl, hinv⟩
  | err s => rw [hc] at h; cases h
  | fuelOut s => rw [hc] at h; cases h

theorem check_shape (env : Env) (fuel : Nat) (options : CheckOptions) :
    check env fuel options =
      (if jsStartsWith options.path "http" then
        runCrawlAndReport env fuel
          { options with linksToSkip := some (options.linksToSkip.getD [] ++ ["^mailto:"]) }
          false
      else if env.bindOk (effPort env options) then
        runCrawlAndReport env fuel
          { options with
            linksToSkip := some (options.linksToSkip.getD [] ++ ["^mailto:"]),
            path := "http://localhost:" ++ toString (effPort env options) }
          true
      else
        { report := none,
          options :=
            { options with linksToSkip := some (options.linksToSkip.getD [] ++ ["^mailto:"]) },
          serverStarted := false, serverStopped := false,
          finalState := emptyCrawlState, fuelExhausted := false }) := rfl

theorem check_report_some (env : Env) (fuel : Nat) (options : CheckOptions)
    (report : CrawlResult) (h : (check env fuel options).report = some report) :
    ∃ opts2 started, check env fuel options = runCrawlAndReport env fuel opts2 started ∧
      opts2.linksToSkip = some (options.linksToSkip.getD [] ++ ["^mailto:"]) := by
  rw [check_shape] at h
  by_cases h1 : jsStartsWith options.path "http" = true
  · exact ⟨_, false, by rw [check_shape, if_pos h1], rfl⟩
  · rw [Bool.not_eq_true] at h1
    rw [if_neg (by simp [h1])] at h
    by_cases h2 : env.bindOk (effPort env options) = true
    · exact ⟨_, true, by rw [check_shape, if_neg (by simp [h1]), if_pos h2], rfl⟩
    · rw [Bool.not_eq_true] at h2
      rw [if_neg (by simp [h2])] at h
      cases h

/-- C1: in any completed run, each distinct url encountered (entered into the
visited cache) yields exactly one LinkResult: the urls of report.links are
exactly the cache entries in order and contain no duplicates; moreover each
url is handed to the Fetcher at most once (the fetched urls are pairwise
distinct) and every wire request issued during the run belongs to a fetched
url, so no url is fetched because of a second reference to it. -/
theorem check_dedup_unique (env : Env) (fuel : Nat) (options : CheckOptions)
    (report : CrawlResult) (h : (check env fuel options).report = some report) :
    (report.links.map LinkResult.url).Nodup ∧
    report.links.map LinkResult.url = (check env fuel options).finalState.cache ∧
    (check env fuel options).finalState.fetches.Nodup ∧
    (∀ rq ∈ (check env fuel options).finalState.trace,
      rq.url ∈ (check env fuel options).finalState.fetches) := by
  obtain ⟨opts2, started, heq, -⟩ := check_report_some env fuel options report h
  rw [heq] at h ⊢
  obtain ⟨hl, -, hinv⟩ := runCrawlAndReport_ok env fuel opts2 started report h
  rw [hl]
  refine ⟨?_, hinv.results_cache, hinv.fetches_nodup, hinv.trace_fetches⟩
  rw [hinv.results_cache]
  exact hinv.cache_nodup

/-- C1 witness: a one page run where the theorem applies concretely. -/
theorem check_dedup_unique_witness :
    (([{ url := "http://x", status := some 200, state := LinkState.OK }] :
        List LinkResult).map LinkResult.url).Nodup ∧
    ([{ url := "http://x", status := some 200, state := LinkState.OK }] :
        List LinkResult).map LinkResult.url = (check envOkPlain 2 optsX).finalState.cache ∧
    (check envOkPlain 2 optsX).finalState.fetches.Nodup ∧
    (∀ rq ∈ (check envOkPlain 2 optsX).finalState.trace,
      rq.url ∈ (check envOkPlain 2 optsX).finalState.fetches) :=
  check_dedup_unique envOkPlain 2 optsX
    { passed := true,
      links := [{ url := "http://x", status := some 200, state := LinkState.OK }] }
    (by decide)

/-- C2: the passed field of a returned report is true exactly when no
LinkResult in report.links has state BROKEN. -/
theorem check_passed_iff_no_broken (env : Env) (fuel : Nat) (options : CheckOptions)
    (report : CrawlResult) (h : (check env fuel options).report = some report) :
    (report.passed = true ↔ ∀ r ∈ report.links, r.state ≠ LinkState.BROKEN) := by
  obtain ⟨opts2, started, heq, -⟩ := check_report_some env fuel options report h
  rw [heq] at h
  obtain ⟨hl, hp, -⟩ := runCrawlAndReport_ok env fuel opts2 started report h
  rw [hp, hl]
  simp

/-- C2 witness: the theorem applied at a concrete passing run. -/
theorem check_passed_iff_no_broken_witness :
    (true = true ↔ ∀ r ∈ ([{ url := "http://x", status := some 200, state := LinkState.OK }] :
        List LinkResult), r.state ≠ LinkState.BROKEN) :=
  check_passed_iff_no_broken envOkPlain 2 optsEmptySkip
    { passed := true,
      links := [{ url := "http://x", status := some 200, state := LinkState.OK }] }
    (by decide)

/-- C4: whenever some pattern of the normalized skip list (the configured
patterns with the built in mailto pattern appended) compiles and its
unanchored test accepts a url, no wire request of the run targets that url,
and every LinkResult of the report for that url has state SKIPPED and no
status. -/
theorem skip_match_never_fetched (env : Env) (fuel : Nat) (options : CheckOptions)
    (report : CrawlResult) (u p : String) (g : String → Bool)
    (h : (check env fuel options).report = some report)
    (hp : p ∈ options.linksToSkip.getD [] ++ ["^mailto:"])
    (hg : env.regexCompile p = some g)
    (hm : g u = true) :
    (∀ rq ∈ (check env fuel options).finalState.trace, rq.url ≠ u) ∧
    (∀ r ∈ report.links, r.url = u → r.state = LinkState.SKIPPED ∧ r.status = none) := by
  obtain ⟨opts2, started, heq, hlts⟩ := check_report_some env fuel options report h
  rw [heq] at h ⊢
  obtain ⟨hl, -, hinv⟩ := runCrawlAndReport_ok env fuel opts2 started report h
  have hcfg : (cfgOf opts2).linksToSkip = options.linksToSkip.getD [] ++ ["^mailto:"] := by
    simp [cfgOf, hlts]
  have hhit : SkipHit env (cfgOf opts2).linksToSkip u := by
    rw [hcfg]
    exact ⟨p, hp, g, hg, hm⟩
  constructor
  · intro rq hrq hequ
    have hf := hinv.trace_fetches rq hrq
    rw [hequ] at hf
    exact hinv.fetches_noskip u hf hhit
  · intro r hr hru
    refine hinv.results_skip r (hl ▸ hr) ?_
    rw [hru]
    exact hhit

/-- C4 witness: a run whose root html page links to a mailto url; the url
matches the built in pattern, is never requested, and is reported SKIPPED. -/
theorem skip_match_never_fetched_witness :
    (∀ rq ∈ (check envHtmlMailto 3 optsRecurse).finalState.trace, rq.url ≠ "mailto:a") ∧
    (∀ r ∈ ([{ url := "http://x", status := some 200, state := LinkState.OK },
             { url := "mailto:a", status := none, state := LinkState.SKIPPED }] :
        List LinkResult), r.url = "mailto:a" →
      r.state = LinkState.SKIPPED ∧ r.status = none) :=
  skip_match_never_fetched envHtmlMailto 3 optsRecurse
    { passed := true,
      links := [{ url := "http://x", status := some 200, state := LinkState.OK },
                { url := "mailto:a", status := none, state := LinkState.SKIPPED }] }
    "mailto:a" "^mailto:" (fun u => jsStartsWith u "mailto:")
    (by decide) (by decide) rfl (by decide)

/-- C3: for a url that is processed in the fetch branch (first visit, no skip
match), first, the child recursion flag equals true exactly when the run has
recursion enabled and the child url starts with the target prefix; second,
a call with shouldCrawlChildren false returns right after the single fetch,
adding exactly the url itself to the cache and emitting no pagestart event,
whatever the content type was; third, when shouldCrawlChildren is true and
the response was html, the call iterates over the extracted children, each
stepped with exactly that child recursion flag. -/
theorem crawl_recursion_gate (env : Env) (cfg : CrawlConfig) (f : Nat) (url : String)
    (s : CrawlState) (tests : List Bool)
    (hmem : url ∉ s.cache)
    (ht : testAll env cfg.linksToSkip url = Except.ok tests)
    (hany : tests.any id = false) :
    (∀ u, childFlag cfg u = true ↔
      (cfg.recurseFlag = true ∧ jsStartsWith u cfg.path = true)) ∧
    (_filterCachedFilterSkippedThenCrawlUrlAndChildren env cfg (f + 1) url false s =
      CrawlOutcome.ok (pushFetched (cacheAdd s url) url
        (_fetch env.transport (cacheAdd s url).reqCount url false)) ∧
      (pushFetched (cacheAdd s url) url
        (_fetch env.transport (cacheAdd s url).reqCount url false)).cache
        = s.cache ++ [url] ∧
      (pushFetched (cacheAdd s url) url
        (_fetch env.transport (cacheAdd s url).reqCount url false)).events
        = s.events ++ [Event.linkFetch
            (_fetch env.transport (cacheAdd s url).reqCount url false).1]) ∧
    ((_fetch env.transport (cacheAdd s url).reqCount url true).1.shouldRecurse = true →
      _filterCachedFilterSkippedThenCrawlUrlAndChildren env cfg (f + 1) url true s =
        runChildren (_filterCachedFilterSkippedThenCrawlUrlAndChildren env cfg f)
          (childFlag cfg)
          (env.getLinks (_fetch env.transport (cacheAdd s url).reqCount url true).1.data url)
          (pushPage (pushFetched (cacheAdd s url) url
            (_fetch env.transport (cacheAdd s url).reqCount url true)) url)) := by
  refine ⟨?_, ⟨?_, ?_, ?_⟩, ?_⟩
  · intro u
    simp [childFlag, Bool.and_eq_true]
  · simp only [_filterCachedFilterSkippedThenCrawlUrlAndChildren, hmem, if_false, ht, hany,
      Bool.false_eq_true, Bool.false_and]
  · simp [pushFetched, cacheAdd]
  · simp [pushFetched, cacheAdd]
  · intro hrec
    simp only [_filterCachedFilterSkippedThenCrawlUrlAndChildren, hmem, if_false, ht, hany,
      Bool.false_eq_true, hrec, Bool.true_and, if_true]

/-- C3 witness: the theorem applied at a concrete html page. -/
theorem crawl_recursion_gate_witness :
    (childFlag cfgW "http://x/a" = true ↔
      (cfgW.recurseFlag = true ∧ jsStartsWith "http://x/a" cfgW.path = true)) ∧
    (_filterCachedFilterSkippedThenCrawlUrlAndChildren envHtmlMailto cfgW 2 "http://x" false
        emptyCrawlState =
      CrawlOutcome.ok (pushFetched (cacheAdd emptyCrawlState "http://x") "http://x"
        (_fetch envHtmlMailto.transport (cacheAdd emptyCrawlState "http://x").reqCount
          "http://x" false))) ∧
    (_filterCachedFilterSkippedThenCrawlUrlAndChildren envHtmlMailto cfgW 2 "http://x" true
        emptyCrawlState =
      runChildren (_filterCachedFilterSkippedThenCrawlUrlAndChildren envHtmlMailto cfgW 1)
        (childFlag cfgW)
        (envHtmlMailto.getLinks
          (_fetch envHtmlMailto.transport (cacheAdd emptyCrawlState "http://x").reqCount
            "http://x" true).1.data "http://x")
        (pushPage (pushFetched (cacheAdd emptyCrawlState "http://x") "http://x"
          (_fetch envHtmlMailto.transport (cacheAdd emptyCrawlState "http://x").reqCount
            "http://x" true)) "http://x")) := by
  have h := crawl_recursion_gate envHtmlMailto cfgW 1 "http://x" emptyCrawlState [false]
    (by decide) rfl rfl
  exact ⟨h.1 "http://x/a", h.2.1.1, h.2.2 (by decide)⟩

/-- C5 fails as stated: at a concrete run whose only request throws at the
transport level, the recorded LinkResult is BROKEN but carries the numeric
status 0 instead of carrying no status value. -/
theorem transport_error_status_zero_cex :
    (check envNetFail 2 optsX).report =
      some { passed := false,
             links := [{ url := "http://x", status := some 0, state := LinkState.BROKEN }] } ∧
    ({ url := "http://x", status := some 0, state := LinkState.BROKEN } :
        LinkResult).status ≠ none := by decide

/-- C5 (amended): a response status in the interval from 200 up to but not
including 300 yields state OK carrying that status and any other status
yields state BROKEN carrying that status (after the 405 retry, the retry
response decides); a transport level exception yields state BROKEN carrying
the numeric status 0 (not an absent status); and the run is never aborted by
a fetch: with all skip patterns valid, the crawl never ends in a propagating
exception, whatever the transport does. -/
theorem fetch_classification_no_abort :
    (∀ (t : Nat → Method → String → Except Unit GaxiosResponse) (n : Nat) (url : String)
        (crawl : Bool) (res : GaxiosResponse),
      t n (headOrGet crawl) url = Except.ok res → ¬ res.status = 405 →
        (_fetch t n url crawl).1.linkResult =
          { url := url, status := some res.status, state := classify res.status } ∧
        (classify res.status = LinkState.OK ↔ 200 ≤ res.status ∧ res.status < 300)) ∧
    (∀ (t : Nat → Method → String → Except Unit GaxiosResponse) (n : Nat) (url : String)
        (crawl : Bool) (res res2 : GaxiosResponse),
      t n (headOrGet crawl) url = Except.ok res → res.status = 405 →
      t (n + 1) Method.GET url = Except.ok res2 →
        (_fetch t n url crawl).1.linkResult =
          { url := url, status := some res2.status, state := classify res2.status } ∧
        (classify res2.status = LinkState.OK ↔ 200 ≤ res2.status ∧ res2.status < 300)) ∧
    (∀ (t : Nat → Method → String → Except Unit GaxiosResponse) (n : Nat) (url : String)
        (crawl : Bool) (e : Unit),
      t n (headOrGet crawl) url = Except.error e →
        (_fetch t n url crawl).1.linkResult =
          { url := url, status := some 0, state := LinkState.BROKEN }) ∧
    (∀ (t : Nat → Method → String → Except Unit GaxiosResponse) (n : Nat) (url : String)
        (crawl : Bool) (res : GaxiosResponse) (e : Unit),
      t n (headOrGet crawl) url = Except.ok res → res.status = 405 →
      t (n + 1) Method.GET url = Except.error e →
        (_fetch t n url crawl).1.linkResult =
          { url := url, status := some 0, state := LinkState.BROKEN }) ∧
    (∀ (env : Env) (cfg : CrawlConfig) (fuel : Nat) (url : String) (crawl : Bool)
        (s : CrawlState),
      (∀ p ∈ cfg.linksToSkip, (env.regexCompile p).isSome = true) →
        (_filterCachedFilterSkippedThenCrawlUrlAndChildren env cfg fuel url crawl s).isErr
          = false) := by
  refine ⟨?_, ?_, ?_, ?_, ?_⟩
  · intro t n url crawl res h1 h2
    constructor
    · simp [_fetch, h1, h2, finishFetch]
    · by_cases hc : 200 ≤ res.status ∧ res.status < 300 <;> simp [classify, hc]
  · intro t n url crawl res res2 h1 h2 h3
    constructor
    · simp [_fetch, h1, h2, h3, finishFetch]
    · by_cases hc : 200 ≤ res2.status ∧ res2.status < 300 <;> simp [classify, hc]
  · intro t n url crawl e h1
    simp [_fetch, h1, failFetch]
  · intro t n url crawl res e h1 h2 h3
    simp [_fetch, h1, h2, h3, failFetch]
  · intro env cfg fuel url crawl s hv
    exact crawl_noerr env cfg hv fuel url crawl s

/-- C5 witness: the amended theorem applied at concrete inputs for the
exception case and for the never aborts case. -/
theorem fetch_classification_no_abort_witness :
    (_fetch envNetFail.transport 0 "http://x" false).1.linkResult =
      { url := "http://x", status := some 0, state := LinkState.BROKEN } ∧
    (_filterCachedFilterSkippedThenCrawlUrlAndChildren envNetFail cfgW 2 "http://x" false
      emptyCrawlState).isErr = false := by
  have h := fetch_classification_no_abort
  exact ⟨h.2.2.1 envNetFail.transport 0 "http://x" false () rfl,
    h.2.2.2.2 envNetFail cfgW 2 "http://x" false emptyCrawlState (by intro p hp; rfl)⟩

/-- C6 is violated by the code: at a concrete one page run the single link
event carries the whole FetchResult record (data, shouldRecurse, linkResult)
as its payload, not the LinkResult itself, so the sequence of emitted
payloads is not the links sequence of the report. The repository CLI
subscribes to this event typed as LinkResult and reads its state field,
which this payload does not have. -/
theorem link_event_payload_mismatch :
    (check envOkPlain 2 optsX).report =
      some { passed := true,
             links := [{ url := "http://x", status := some 200, state := LinkState.OK }] } ∧
    (check envOkPlain 2 optsX).finalState.events =
      [Event.linkFetch
        { data := "", shouldRecurse := false,
          linkResult := { url := "http://x", status := some 200, state := LinkState.OK } }] ∧
    (check envOkPlain 2 optsX).finalState.events ≠
      [Event.linkResult { url := "http://x", status := some 200, state := LinkState.OK }] := by
  decide

/-- C7 is violated by the code: at a concrete run with a filesystem target
(so a local server is started) and an invalid skip pattern, the crawl throws
and check propagates the exception without reaching the destroy call, so the
started server is never stopped. -/
theorem server_leak_on_crawl_throw :
    (check envBadPattern 3 optsLocalBad).serverStarted = true ∧
    (check envBadPattern 3 optsLocalBad).serverStopped = false ∧
    (check envBadPattern 3 optsLocalBad).report = none := by decide

/-- C8 fails as stated: at a concrete run the options object differs after
check from its value at the call, because the built in mailto pattern was
pushed onto its linksToSkip array. -/
theorem options_mutated_cex :
    (check envOkPlain 2 optsEmptySkip).options ≠ optsEmptySkip ∧
    (check envOkPlain 2 optsEmptySkip).options.linksToSkip = some ["^mailto:"] := by decide

/-- C8 (amended): check mutates the caller's options object in place, in
exactly two ways: linksToSkip always becomes the configured list (empty when
absent) with the built in mailto pattern appended, and path is rewritten to
the local endpoint whenever the target was not url shaped and the server
bind succeeded; recurse and port are never changed. -/
theorem check_options_mutation (env : Env) (fuel : Nat) (options : CheckOptions) :
    (check env fuel options).options.linksToSkip =
      some (options.linksToSkip.getD [] ++ ["^mailto:"]) ∧
    (check env fuel options).options.recurse = options.recurse ∧
    (check env fuel options).options.port = options.port ∧
    (check env fuel options).options.path =
      (if jsStartsWith options.path "http" = true then options.path
       else if env.bindOk (effPort env options) = true then
         "http://localhost:" ++ toString (effPort env options)
       else options.path) := by
  rw [check_shape]
  by_cases h1 : jsStartsWith options.path "http" = true
  · simp [h1, runCrawlAndReport_options_eq]
  · rw [Bool.not_eq_true] at h1
    by_cases h2 : env.bindOk (effPort env options) = true
    · simp [h1, h2, runCrawlAndReport_options_eq]
    · rw [Bool.not_eq_true] at h2
      simp [h1, h2]

theorem crawl_err_first (env : Env) (cfg : CrawlConfig) (fuel : Nat) (url : String)
    (s : CrawlState) (crawl : Bool) (hmem : url ∉ s.cache)
    (hta : testAll env cfg.linksToSkip url = Except.error ()) :
    _filterCachedFilterSkippedThenCrawlUrlAndChildren env cfg (fuel + 1) url crawl s =
      CrawlOutcome.err (cacheAdd s url) := by
  simp only [_filterCachedFilterSkippedThenCrawlUrlAndChildren, hmem, if_false, hta]

theorem runCrawl_err_invalid (env : Env) (fuel : Nat) (opts : CheckOptions) (started : Bool)
    (hbad2 : ∃ p ∈ (cfgOf opts).linksToSkip, env.regexCompile p = none) :
    (runCrawlAndReport env (fuel + 1) opts started).report = none ∧
    (runCrawlAndReport env (fuel + 1) opts started).finalState =
      cacheAdd emptyCrawlState opts.path := by
  have hta := testAll_error_of_invalid env opts.path (cfgOf opts).linksToSkip hbad2
  have hcr := crawl_err_first env (cfgOf opts) fuel opts.path emptyCrawlState true
    (by simp [emptyCrawlState]) hta
  unfold runCrawlAndReport
  rw [hcr]
  exact ⟨rfl, rfl⟩

/-- C9 fails as stated: at a concrete run with an invalid skip pattern the
failure is fatal and no wire request is ever issued, but the visited cache
already holds the root url when the error surfaces, so the run did not fail
before traversal started. -/
theorem invalid_skip_regex_cex :
    (check envBadPattern 3 optsHttpBad).report = none ∧
    (check envBadPattern 3 optsHttpBad).finalState.trace = [] ∧
    (check envBadPattern 3 optsHttpBad).finalState.cache = ["http://x"] ∧
    (check envBadPattern 3 optsHttpBad).finalState.cache ≠ [] := by decide

/-- C9 (amended): a linksToSkip entry that does not compile is fatal, but
the error surfaces only when the first url is processed, inside traversal:
check yields no report and no wire request, result, or event is produced,
yet the root url (the target, or the local endpoint when a server was
started) has already been entered into the visited cache. -/
theorem invalid_pattern_fatal (env : Env) (fuel : Nat) (options : CheckOptions)
    (hbad : ∃ p ∈ options.linksToSkip.getD [], env.regexCompile p = none)
    (hsrv : jsStartsWith options.path "http" = true ∨
      env.bindOk (effPort env options) = true) :
    (check env (fuel + 1) options).report = none ∧
    (check env (fuel + 1) options).finalState.trace = [] ∧
    (check env (fuel + 1) options).finalState.results = [] ∧
    (check env (fuel + 1) options).finalState.events = [] ∧
    (check env (fuel + 1) options).finalState.cache = [effTarget env options] := by
  obtain ⟨p, hp, hcp⟩ := hbad
  rw [check_shape]
  by_cases h1 : jsStartsWith options.path "http" = true
  · simp only [h1, if_true]
    obtain ⟨hrep, hfs⟩ := runCrawl_err_invalid env fuel
      { options with linksToSkip := some (options.linksToSkip.getD [] ++ ["^mailto:"]) }
      false ⟨p, by simp [cfgOf]; exact Or.inl hp, hcp⟩
    rw [hrep, hfs]
    simp [cacheAdd, emptyCrawlState, effTarget, h1]
  · rw [Bool.not_eq_true] at h1
    have h2 : env.bindOk (effPort env options) = true := by
      rcases hsrv with hsrv | hsrv
      · rw [h1] at hsrv; cases hsrv
      · exact hsrv
    simp only [h1, Bool.false_eq_true, if_false, h2, if_true]
    obtain ⟨hrep, hfs⟩ := runCrawl_err_invalid env fuel
      { options with
        linksToSkip := some (options.linksToSkip.getD [] ++ ["^mailto:"]),
        path := "http://localhost:" ++ toString (effPort env options) }
      true ⟨p, by simp [cfgOf]; exact Or.inl hp, hcp⟩
    rw [hrep, hfs]
    simp [cacheAdd, emptyCrawlState, effTarget, h1]

/-- C9 witness: the amended theorem applied at a concrete run. -/
theorem invalid_pattern_fatal_witness :
    (check envBadPattern 5 optsHttpBad).report = none ∧
    (check envBadPattern 5 optsHttpBad).finalState.trace = [] ∧
    (check envBadPattern 5 optsHttpBad).finalState.results = [] ∧
    (check envBadPattern 5 optsHttpBad).finalState.events = [] ∧
    (check envBadPattern 5 optsHttpBad).finalState.cache =
      [effTarget envBadPattern optsHttpBad] :=
  invalid_pattern_fatal envBadPattern 4 optsHttpBad
    ⟨"[", by decide, rfl⟩ (Or.inl (by decide))

/-- C10: whenever the first request of a fetch answers with status exactly
405, the fetch issues exactly one further request, a GET, and nothing else,
even when the first request was itself a GET; and the state, status and html
classification of the result are taken from the retry response (or the
failure result when the retry throws). -/
theorem retry405_exactly_one_get (t : Nat → Method → String → Except Unit GaxiosResponse)
    (n : Nat) (url : String) (crawl : Bool) (res : GaxiosResponse)
    (h : t n (headOrGet crawl) url = Except.ok res) (h405 : res.status = 405) :
    (_fetch t n url crawl).2 = [⟨headOrGet crawl, url⟩, ⟨Method.GET, url⟩] ∧
    (∀ res2, t (n + 1) Method.GET url = Except.ok res2 →
      (_fetch t n url crawl).1 = finishFetch url res2) ∧
    (∀ e, t (n + 1) Method.GET url = Except.error e →
      (_fetch t n url crawl).1 = failFetch url) := by
  refine ⟨?_, ?_, ?_⟩
  · cases h2 : t (n + 1) Method.GET url <;> simp [_fetch, h, h405, h2]
  · intro res2 h2
    simp [_fetch, h, h405, h2]
  · intro e h2
    simp [_fetch, h, h405, h2]

/-- C10 witness: a first GET answering 405 is retried once with GET and the
result comes from the 200 text html retry response. -/
theorem retry405_exactly_one_get_witness :
    (_fetch t405 0 "u" true).2 =
      [{ method := Method.GET, url := "u" }, { method := Method.GET, url := "u" }] ∧
    (_fetch t405 0 "u" true).1 =
      finishFetch "u" { status := 200, contentType := "text/html", data := "B" } := by
  have h := retry405_exactly_one_get t405 0 "u" true
    { status := 405, contentType := "", data := "" } rfl rfl
  exact ⟨h.1, h.2.1 { status := 200, contentType := "text/html", data := "B" } rfl⟩

end Linkinator
